import Mathlib

/-!
Shallow embedding of the pending-metadata reconciliation backend
(`backend/src/index.ts`) and proofs of the specified properties.

The backend keeps three in-process stores: `pendingAssetMetadata` (write
intents keyed by FireFly transaction id, a JS object, hence an insertion-
ordered map with unique string keys), `assetMetadata` (confirmed metadata
keyed by the ledger-assigned asset id) and `userProfiles` (not needed for
the claims below).  The reconciliation engine is the `firefly.listen`
callback; the request surface of interest is `POST /api/asset/register`.

JS objects with non-index string keys enumerate in insertion order, so both
stores are modelled as association lists in insertion order; assignment
overwrites in place or appends, `delete` removes the key.  JS
`Array.prototype.sort` is stable, so the `createdAt` sort in the handler is
modelled by the stable `List.insertionSort`.  Timestamps (`Date.now()`) are
naturals; the numeric `parseInt(eventOutput.assetId)` conversion is
abstracted by giving the event output an already-numeric `assetId`.
-/

namespace AssetBackend

/-- Off-chain metadata record, the value shape shared by
`pendingAssetMetadata` (the Intent Store) and `assetMetadata` (the
Authoritative Metadata Store) in `index.ts`. -/
structure AssetMeta where
  description : String
  category : String
  location : Option String
  createdBy : String
  createdAt : Nat
deriving DecidableEq

/-- Lookup in a JS-object-as-association-list: first entry with the key. -/
def getKey {κ ν : Type} [BEq κ] : List (κ × ν) → κ → Option ν
  | [], _ => none
  | e :: t, k => if e.1 == k then some e.2 else getKey t k

/-- JS object assignment `obj[k] = v`: overwrite the entry for `k` in
place if present, otherwise append `(k, v)` at the end. -/
def setKey {κ ν : Type} [BEq κ] : List (κ × ν) → κ → ν → List (κ × ν)
  | [], k, v => [(k, v)]
  | e :: t, k, v => if e.1 == k then (k, v) :: t else e :: setKey t k v

/-- JS `delete obj[k]`: drop the entry with key `k` (keys of a JS object
are unique, so filtering every occurrence coincides with deleting the
single entry). -/
def eraseKey {κ ν : Type} [BEq κ] (l : List (κ × ν)) (k : κ) : List (κ × ν) :=
  l.filter (fun e => !(e.1 == k))

/-- The `output` fields of a blockchain event that the handler reads for
an `AssetRegistered` event: `assetId` and `registeredBy`. -/
structure EventOutput where
  assetId : Nat
  registeredBy : String
deriving DecidableEq

/-- A FireFly `blockchain_event_received` notification as the listener
sees it: `event.blockchainEvent?.name` and `event.blockchainEvent?.output`
(either may be absent). -/
structure FFEvent where
  name : Option String
  output : Option EventOutput
deriving DecidableEq

/-- One `io.emit(eventName, ...)` broadcast with its payload fields
`name`, `output` and the server-assigned `timestamp`. -/
structure Broadcast where
  name : String
  output : Option EventOutput
  timestamp : Nat
deriving DecidableEq

/-- The mutable server state touched by the reconciliation handler. -/
structure ServerState where
  pendingAssetMetadata : List (String × AssetMeta)
  assetMetadata : List (Nat × AssetMeta)
deriving DecidableEq

/-- Result of one invocation of the `firefly.listen` callback: the new
store state, the matched `(txId, metadata)` pair if any (the branch that
commits and deletes), the `console.warn` data if the unmatched branch ran,
and the Socket.IO broadcasts performed. -/
structure HandlerResult where
  state : ServerState
  consumed : Option (String × AssetMeta)
  warned : Option (String × Nat)
  broadcasts : List Broadcast
deriving DecidableEq

/-- JS `String.prototype.toLowerCase()`, as a character-wise case fold
(the hex addresses and member ids compared by the backend are ASCII, where
this agrees with JS). -/
def jsToLower (s : String) : String :=
  String.mk (s.data.map Char.toLower)

/-- The filter step of the handler:
`Object.entries(pendingAssetMetadata).filter(([txId, m]) =>
m.createdBy.toLowerCase() === creatorAddress)`. -/
def creatorEntries (pending : List (String × AssetMeta)) (creatorAddress : String) :
    List (String × AssetMeta) :=
  pending.filter (fun e => jsToLower e.2.createdBy == creatorAddress)

/-- Comparison used by `creatorEntries.sort((a, b) => a[1].createdAt - b[1].createdAt)`. -/
def createdLE (a b : String × AssetMeta) : Prop :=
  a.2.createdAt ≤ b.2.createdAt

instance : DecidableRel createdLE := fun a b =>
  inferInstanceAs (Decidable (a.2.createdAt ≤ b.2.createdAt))

instance : IsTotal (String × AssetMeta) createdLE :=
  ⟨fun a b => Nat.le_total a.2.createdAt b.2.createdAt⟩

instance : IsTrans (String × AssetMeta) createdLE :=
  ⟨fun _ _ _ => Nat.le_trans⟩

/-- The sort step of the handler.  JS `Array.prototype.sort` is stable,
modelled by the stable insertion sort. -/
def sortedEntries (l : List (String × AssetMeta)) : List (String × AssetMeta) :=
  List.insertionSort createdLE l

/-- The event name the handler recognizes as an asset-creation confirmation. -/
def assetRegisteredName : String := "AssetRegistered"

/-- The `firefly.listen` callback of `index.ts` on one event, at server
time `now`.  For a recognized `AssetRegistered` event with an output it
case-folds `registeredBy`, filters the pending store to that creator,
sorts by `createdAt` and, if nonempty, commits the first entry under the
asset id of the event and deletes it from the pending store; otherwise it
records the unmatched warning.  (`creatorEntries.length > 0` followed by
`sortedEntries[0]` is rendered as matching on the head of the sorted list,
which is `some` exactly when the filtered list is nonempty.)  Finally it
broadcasts the event iff `eventName` is truthy (present and nonempty). -/
def handleEvent (now : Nat) (st : ServerState) (ev : FFEvent) : HandlerResult :=
  let recon : ServerState × Option (String × AssetMeta) × Option (String × Nat) :=
    match ev.name, ev.output with
    | some n, some out =>
      if n == assetRegisteredName then
        let creatorAddress := jsToLower out.registeredBy
        match (sortedEntries (creatorEntries st.pendingAssetMetadata creatorAddress)).head? with
        | some (txId, metadata) =>
          (⟨eraseKey st.pendingAssetMetadata txId,
            setKey st.assetMetadata out.assetId metadata⟩,
           some (txId, metadata), none)
        | none => (st, none, some (creatorAddress, out.assetId))
      else (st, none, none)
    | _, _ => (st, none, none)
  let broadcasts : List Broadcast :=
    match ev.name with
    | some n => if n == "" then [] else [⟨n, ev.output, now⟩]
    | none => []
  ⟨recon.1, recon.2.1, recon.2.2, broadcasts⟩

/-- The hardcoded member-to-signing-key table `MEMBER_KEYS` of `index.ts`. -/
def MEMBER_KEYS (userId : String) : Option String :=
  if userId == "member0" then some "0xf56dfc48a146b9b4511465ecbf7f4b4e7308ce5a"
  else if userId == "member1" then some "0x58521a46882c3049f392a9022204e47201ca7ca4"
  else none

/-- JS `v || dflt` for an optional string field: the default is taken when
the field is absent or the empty string (both falsy). -/
def jsOr (v : Option String) (dflt : String) : String :=
  match v with
  | some s => if s == "" then dflt else s
  | none => dflt

/-- Body of a `POST /api/asset/register` request. -/
structure RegisterRequest where
  userId : String
  description : Option String
  category : Option String
  location : Option String
deriving DecidableEq

/-- The Ledger Gateway acknowledgment `fireflyRes` with its provisional
transaction identifier `id`. -/
structure GatewayAck where
  id : String
deriving DecidableEq

/-- Responses of the register handler: 400 invalid user, 202 accepted with
the provisional id, or 500 carrying the gateway error message. -/
inductive RegisterResponse where
  | invalidUser
  | accepted (id : String)
  | gatewayError (msg : String)
deriving DecidableEq

/-- Result of one `POST /api/asset/register` invocation: the new pending
store, the HTTP response, and whether `invokeContractAPI` was reached. -/
structure RegisterResult where
  pending : List (String × AssetMeta)
  response : RegisterResponse
  gatewayInvoked : Bool
deriving DecidableEq

/-- The pending metadata record written by the register handler. -/
def intentOf (now : Nat) (signingKey : String) (req : RegisterRequest) : AssetMeta :=
  { description := jsOr req.description ("Asset created by " ++ req.userId)
    category := jsOr req.category "General"
    location := some (jsOr req.location "Unknown")
    createdBy := signingKey
    createdAt := now }

/-- The `POST /api/asset/register` handler of `index.ts` at server time
`now`.  `gateway` is the outcome of the awaited
`firefly.invokeContractAPI(assetApiName, "registerAsset", ...)` call: a
thrown error lands in the `catch` (500, no store mutation); only a
successful acknowledgment leads to the
`pendingAssetMetadata[fireflyRes.id] = {...}` write. -/
def registerAsset (now : Nat) (pending : List (String × AssetMeta))
    (gateway : Except String GatewayAck) (req : RegisterRequest) : RegisterResult :=
  match MEMBER_KEYS req.userId with
  | none => ⟨pending, .invalidUser, false⟩
  | some signingKey =>
    match gateway with
    | .error msg => ⟨pending, .gatewayError msg, true⟩
    | .ok ack =>
      ⟨setKey pending ack.id (intentOf now signingKey req), .accepted ack.id, true⟩

/-! Helper lemmas about the store primitives. -/

theorem getKey_setKey_self {κ ν : Type} [BEq κ] [LawfulBEq κ]
    (l : List (κ × ν)) (k : κ) (v : ν) :
    getKey (setKey l k v) k = some v := by
  induction l with
  | nil => simp [setKey, getKey]
  | cons e t ih =>
    by_cases h : e.1 == k
    · simp [setKey, h, getKey]
    · simp [setKey, h, getKey, ih]

theorem getKey_setKey_ne {κ ν : Type} [BEq κ] [LawfulBEq κ]
    (l : List (κ × ν)) (k j : κ) (v : ν) (h : j ≠ k) :
    getKey (setKey l k v) j = getKey l j := by
  have hkj : (k == j) = false := beq_eq_false_iff_ne.2 (Ne.symm h)
  induction l with
  | nil => simp [setKey, getKey, hkj]
  | cons e t ih =>
    by_cases he : e.1 == k
    · have hej : (e.1 == j) = false := by
        rw [eq_of_beq he]; exact hkj
      simp [setKey, he, getKey, hkj, hej]
    · simp [setKey, he, getKey, ih]

theorem mem_eraseKey {κ ν : Type} [BEq κ] {l : List (κ × ν)} {k : κ} {x : κ × ν} :
    x ∈ eraseKey l k ↔ x ∈ l ∧ (x.1 == k) = false := by
  simp [eraseKey, List.mem_filter]

theorem not_mem_eraseKey_self {κ ν : Type} [BEq κ] [LawfulBEq κ]
    {l : List (κ × ν)} {k : κ} {v : ν} :
    (k, v) ∉ eraseKey l k := by
  intro h
  simpa using (mem_eraseKey.1 h).2

theorem getVal_unique {κ ν : Type} {l : List (κ × ν)}
    (h : (l.map Prod.fst).Nodup) {k : κ} {a b : ν}
    (ha : (k, a) ∈ l) (hb : (k, b) ∈ l) : a = b := by
  induction l with
  | nil => cases ha
  | cons e t ih =>
    rw [List.map_cons, List.nodup_cons] at h
    rcases List.mem_cons.1 ha with rfl | hat
    · rcases List.mem_cons.1 hb with hbe | hbt
      · exact (Prod.mk.injEq _ _ _ _ ▸ hbe.symm).2
      · exact absurd (List.mem_map_of_mem Prod.fst hbt) h.1
    · rcases List.mem_cons.1 hb with rfl | hbt
      · exact absurd (List.mem_map_of_mem Prod.fst hat) h.1
      · exact ih h.2 hat hbt

/-! Helper lemmas about the filter and sort steps. -/

theorem mem_creatorEntries {p : List (String × AssetMeta)} {c : String}
    {x : String × AssetMeta} :
    x ∈ creatorEntries p c ↔ x ∈ p ∧ jsToLower x.2.createdBy = c := by
  simp [creatorEntries, List.mem_filter]

theorem mem_sortedEntries {l : List (String × AssetMeta)} {x : String × AssetMeta} :
    x ∈ sortedEntries l ↔ x ∈ l :=
  List.mem_insertionSort createdLE

theorem sortedEntries_eq_nil_iff {l : List (String × AssetMeta)} :
    sortedEntries l = [] ↔ l = [] := by
  constructor
  · intro h
    have := List.length_insertionSort createdLE l
    rw [sortedEntries] at h
    rw [h] at this
    exact List.length_eq_zero.1 this.symm
  · intro h
    subst h
    rfl

theorem head?_sortedEntries_mem {l : List (String × AssetMeta)}
    {e : String × AssetMeta} (h : (sortedEntries l).head? = some e) : e ∈ l := by
  cases hsl : sortedEntries l with
  | nil => rw [hsl] at h; cases h
  | cons a t =>
    rw [hsl] at h
    have ha : a = e := by injection h
    subst ha
    exact mem_sortedEntries.1 (hsl ▸ List.mem_cons_self a t)

theorem head?_sortedEntries_min {l : List (String × AssetMeta)}
    {e : String × AssetMeta} (h : (sortedEntries l).head? = some e) :
    ∀ x ∈ l, e.2.createdAt ≤ x.2.createdAt := by
  have hs : List.Sorted createdLE (sortedEntries l) :=
    List.sorted_insertionSort createdLE l
  cases hsl : sortedEntries l with
  | nil => rw [hsl] at h; cases h
  | cons a t =>
    rw [hsl] at h hs
    have ha : a = e := by injection h
    subst ha
    intro x hx
    have hx2 : x ∈ a :: t := hsl ▸ mem_sortedEntries.2 hx
    rcases List.mem_cons.1 hx2 with rfl | hxt
    · exact le_refl _
    · exact List.rel_of_sorted_cons hs x hxt

/-! Reduction lemmas for the event handler. -/

theorem handleEvent_assetRegistered (now : Nat) (st : ServerState) (out : EventOutput) :
    handleEvent now st ⟨some assetRegisteredName, some out⟩ =
      match (sortedEntries (creatorEntries st.pendingAssetMetadata
          (jsToLower out.registeredBy))).head? with
      | some (txId, metadata) =>
        ⟨⟨eraseKey st.pendingAssetMetadata txId,
          setKey st.assetMetadata out.assetId metadata⟩,
         some (txId, metadata), none, [⟨assetRegisteredName, some out, now⟩]⟩
      | none =>
        ⟨st, none, some (jsToLower out.registeredBy, out.assetId),
         [⟨assetRegisteredName, some out, now⟩]⟩ := by
  cases h : (sortedEntries (creatorEntries st.pendingAssetMetadata
      (jsToLower out.registeredBy))).head? with
  | none =>
    simp [handleEvent, h]
    decide
  | some e =>
    obtain ⟨txId, metadata⟩ := e
    simp [handleEvent, h]
    decide

theorem handleEvent_other_name (now : Nat) (st : ServerState) (n : String)
    (outp : Option EventOutput) (h : n ≠ assetRegisteredName) :
    handleEvent now st ⟨some n, outp⟩ =
      ⟨st, none, none, if n == "" then [] else [⟨n, outp, now⟩]⟩ := by
  have hb : (n == assetRegisteredName) = false := beq_eq_false_iff_ne.2 h
  cases outp with
  | none => simp [handleEvent]
  | some out => simp [handleEvent, hb]

theorem handleEvent_no_output (now : Nat) (st : ServerState) (n : String) :
    handleEvent now st ⟨some n, none⟩ =
      ⟨st, none, none, if n == "" then [] else [⟨n, none, now⟩]⟩ := by
  simp [handleEvent]

theorem handleEvent_no_name (now : Nat) (st : ServerState) (outp : Option EventOutput) :
    handleEvent now st ⟨none, outp⟩ = ⟨st, none, none, []⟩ := by
  simp [handleEvent]

theorem handleEvent_matched (now : Nat) (st : ServerState) (out : EventOutput)
    (txId : String) (m : AssetMeta)
    (hh : (sortedEntries (creatorEntries st.pendingAssetMetadata
        (jsToLower out.registeredBy))).head? = some (txId, m)) :
    handleEvent now st ⟨some assetRegisteredName, some out⟩ =
      ⟨⟨eraseKey st.pendingAssetMetadata txId, setKey st.assetMetadata out.assetId m⟩,
       some (txId, m), none, [⟨assetRegisteredName, some out, now⟩]⟩ := by
  rw [handleEvent_assetRegistered, hh]

theorem handleEvent_unmatched (now : Nat) (st : ServerState) (out : EventOutput)
    (hh : creatorEntries st.pendingAssetMetadata (jsToLower out.registeredBy) = []) :
    handleEvent now st ⟨some assetRegisteredName, some out⟩ =
      ⟨st, none, some (jsToLower out.registeredBy, out.assetId),
       [⟨assetRegisteredName, some out, now⟩]⟩ := by
  rw [handleEvent_assetRegistered, hh]
  rfl

/-! Concrete sample data used by witnesses and counterexamples. -/

/-- Sample intent payload submitted first (t = 0). -/
def laptopMeta : AssetMeta := ⟨"Laptop", "General", some "Unknown", "0xAB", 0⟩

/-- Sample intent payload submitted second (t = 5) by the same actor. -/
def monitorMeta : AssetMeta := ⟨"Monitor", "General", some "Unknown", "0xAB", 5⟩

/-- Sample intent payload of a different actor. -/
def deskMeta : AssetMeta := ⟨"Desk", "General", some "Unknown", "0xFF", 1⟩

/-- An `AssetRegistered` confirmation for asset 1 by actor `0xAB`. -/
def regEvent1 : FFEvent := ⟨some assetRegisteredName, some ⟨1, "0xAB"⟩⟩

/-- An `AssetRegistered` confirmation for asset 2 by actor `0xAB`. -/
def regEvent2 : FFEvent := ⟨some assetRegisteredName, some ⟨2, "0xAB"⟩⟩

theorem head?_sortedEntries_none {l : List (String × AssetMeta)}
    (h : (sortedEntries l).head? = none) : l = [] := by
  cases hsl : sortedEntries l with
  | nil => exact sortedEntries_eq_nil_iff.1 hsl
  | cons a t => rw [hsl] at h; cases h

/-- General form of the matched branch: whatever intent the handler
consumes for a recognized creation confirmation belongs to the pending
store, has the case-folded actor of the event, and is chronologically
earliest (by `createdAt`) among the pending intents of that actor; it is
deleted from the pending store and committed under the asset id of the
event. -/
theorem consumed_is_oldest_for_actor (now : Nat) (st : ServerState) (out : EventOutput)
    (txId : String) (m : AssetMeta)
    (h : (handleEvent now st ⟨some assetRegisteredName, some out⟩).consumed = some (txId, m)) :
    (txId, m) ∈ st.pendingAssetMetadata ∧
    jsToLower m.createdBy = jsToLower out.registeredBy ∧
    (∀ e ∈ st.pendingAssetMetadata,
      jsToLower e.2.createdBy = jsToLower out.registeredBy → m.createdAt ≤ e.2.createdAt) ∧
    (handleEvent now st ⟨some assetRegisteredName, some out⟩).state.pendingAssetMetadata
      = eraseKey st.pendingAssetMetadata txId ∧
    getKey (handleEvent now st ⟨some assetRegisteredName, some out⟩).state.assetMetadata
      out.assetId = some m := by
  cases hh : (sortedEntries (creatorEntries st.pendingAssetMetadata
      (jsToLower out.registeredBy))).head? with
  | none =>
    rw [handleEvent_unmatched now st out (head?_sortedEntries_none hh)] at h
    cases h
  | some e0 =>
    obtain ⟨k0, m0⟩ := e0
    rw [handleEvent_matched now st out k0 m0 hh] at h
    simp only [Option.some.injEq, Prod.mk.injEq] at h
    obtain ⟨rfl, rfl⟩ := h
    have hcm := mem_creatorEntries.1 (head?_sortedEntries_mem hh)
    refine ⟨hcm.1, hcm.2, ?_, ?_, ?_⟩
    · intro e he hc
      exact head?_sortedEntries_min hh e (mem_creatorEntries.2 ⟨he, hc⟩)
    · rw [handleEvent_matched now st out k0 m0 hh]
    · rw [handleEvent_matched now st out k0 m0 hh]
      exact getKey_setKey_self st.assetMetadata out.assetId m0

/-- The two-intents/two-confirmations scenario, fully evaluated: with
exactly intents I1 (older) and I2 pending for one actor, the first
confirmation consumes I1 and commits it under its asset id, the second
consumes I2 and commits it under its asset id. -/
theorem two_intents_fifo (now1 now2 : Nat) (meta0 : List (Nat × AssetMeta))
    (k1 k2 : String) (m1 m2 : AssetMeta) (b1 b2 : String) (n1 n2 : Nat)
    (hk : k1 ≠ k2) (ht : m1.createdAt < m2.createdAt)
    (h1 : jsToLower m1.createdBy = jsToLower b1)
    (h2 : jsToLower m2.createdBy = jsToLower b1)
    (h3 : jsToLower m2.createdBy = jsToLower b2)
    (hn : n1 ≠ n2) :
    (handleEvent now1 ⟨[(k1, m1), (k2, m2)], meta0⟩
        ⟨some assetRegisteredName, some ⟨n1, b1⟩⟩).consumed = some (k1, m1) ∧
    (handleEvent now2 (handleEvent now1 ⟨[(k1, m1), (k2, m2)], meta0⟩
        ⟨some assetRegisteredName, some ⟨n1, b1⟩⟩).state
        ⟨some assetRegisteredName, some ⟨n2, b2⟩⟩).consumed = some (k2, m2) ∧
    getKey (handleEvent now2 (handleEvent now1 ⟨[(k1, m1), (k2, m2)], meta0⟩
        ⟨some assetRegisteredName, some ⟨n1, b1⟩⟩).state
        ⟨some assetRegisteredName, some ⟨n2, b2⟩⟩).state.assetMetadata n1 = some m1 ∧
    getKey (handleEvent now2 (handleEvent now1 ⟨[(k1, m1), (k2, m2)], meta0⟩
        ⟨some assetRegisteredName, some ⟨n1, b1⟩⟩).state
        ⟨some assetRegisteredName, some ⟨n2, b2⟩⟩).state.assetMetadata n2 = some m2 := by
  have hce1 : creatorEntries [(k1, m1), (k2, m2)] (jsToLower b1) = [(k1, m1), (k2, m2)] := by
    simp [creatorEntries, List.filter, h1, h2]
  have hse1 : sortedEntries [(k1, m1), (k2, m2)] = [(k1, m1), (k2, m2)] := by
    simp [sortedEntries, createdLE, Nat.le_of_lt ht]
  have hk' : (k2 == k1) = false := beq_eq_false_iff_ne.2 (Ne.symm hk)
  have her : eraseKey [(k1, m1), (k2, m2)] k1 = [(k2, m2)] := by
    simp [eraseKey, List.filter, hk']
  have e1 : handleEvent now1 ⟨[(k1, m1), (k2, m2)], meta0⟩
      ⟨some assetRegisteredName, some ⟨n1, b1⟩⟩ =
      ⟨⟨[(k2, m2)], setKey meta0 n1 m1⟩, some (k1, m1), none,
       [⟨assetRegisteredName, some ⟨n1, b1⟩, now1⟩]⟩ := by
    have := handleEvent_matched now1 ⟨[(k1, m1), (k2, m2)], meta0⟩ ⟨n1, b1⟩ k1 m1
      (by rw [show (⟨n1, b1⟩ : EventOutput).registeredBy = b1 from rfl]
          rw [show (⟨[(k1, m1), (k2, m2)], meta0⟩ : ServerState).pendingAssetMetadata
              = [(k1, m1), (k2, m2)] from rfl, hce1, hse1]
          rfl)
    rw [this]
    rw [show (⟨[(k1, m1), (k2, m2)], meta0⟩ : ServerState).pendingAssetMetadata
        = [(k1, m1), (k2, m2)] from rfl, her]
  have hce2 : creatorEntries [(k2, m2)] (jsToLower b2) = [(k2, m2)] := by
    simp [creatorEntries, List.filter, h3]
  have e2 : handleEvent now2 ⟨[(k2, m2)], setKey meta0 n1 m1⟩
      ⟨some assetRegisteredName, some ⟨n2, b2⟩⟩ =
      ⟨⟨[], setKey (setKey meta0 n1 m1) n2 m2⟩, some (k2, m2), none,
       [⟨assetRegisteredName, some ⟨n2, b2⟩, now2⟩]⟩ := by
    have := handleEvent_matched now2 ⟨[(k2, m2)], setKey meta0 n1 m1⟩ ⟨n2, b2⟩ k2 m2
      (by rw [show (⟨n2, b2⟩ : EventOutput).registeredBy = b2 from rfl]
          rw [show (⟨[(k2, m2)], setKey meta0 n1 m1⟩ : ServerState).pendingAssetMetadata
              = [(k2, m2)] from rfl, hce2]
          rfl)
    rw [this]
    simp [eraseKey]
  rw [e1, e2]
  refine ⟨rfl, rfl, ?_, ?_⟩
  · rw [getKey_setKey_ne (setKey meta0 n1 m1) n2 n1 m2 hn]
    exact getKey_setKey_self meta0 n1 m1
  · exact getKey_setKey_self (setKey meta0 n1 m1) n2 m2

/-! The claims. -/

/-- Claim C1: FIFO matching per actor.  For a recognized creation
confirmation, the intent the reconciliation handler removes and commits is
a pending intent of the actor of the event with the chronologically earliest
`createdAt`; and in the scenario where actor A submits I1 then I2 (I1
older) and two confirmations for A arrive in order, the payload of I1 is
committed under the asset id of the first confirmation and the payload of
I2 under that of the second. -/
theorem fifo_matching_per_actor :
    (∀ now st out txId m,
      (handleEvent now st ⟨some assetRegisteredName, some out⟩).consumed = some (txId, m) →
      (txId, m) ∈ st.pendingAssetMetadata ∧
      jsToLower m.createdBy = jsToLower out.registeredBy ∧
      (∀ e ∈ st.pendingAssetMetadata,
        jsToLower e.2.createdBy = jsToLower out.registeredBy → m.createdAt ≤ e.2.createdAt) ∧
      (handleEvent now st ⟨some assetRegisteredName, some out⟩).state.pendingAssetMetadata
        = eraseKey st.pendingAssetMetadata txId ∧
      getKey (handleEvent now st ⟨some assetRegisteredName, some out⟩).state.assetMetadata
        out.assetId = some m) ∧
    (∀ now1 now2 meta0 k1 k2 m1 m2 b1 b2 n1 n2, k1 ≠ k2 →
      AssetMeta.createdAt m1 < AssetMeta.createdAt m2 →
      jsToLower (AssetMeta.createdBy m1) = jsToLower b1 →
      jsToLower (AssetMeta.createdBy m2) = jsToLower b1 →
      jsToLower (AssetMeta.createdBy m2) = jsToLower b2 → n1 ≠ n2 →
      (handleEvent now1 ⟨[(k1, m1), (k2, m2)], meta0⟩
          ⟨some assetRegisteredName, some ⟨n1, b1⟩⟩).consumed = some (k1, m1) ∧
      (handleEvent now2 (handleEvent now1 ⟨[(k1, m1), (k2, m2)], meta0⟩
          ⟨some assetRegisteredName, some ⟨n1, b1⟩⟩).state
          ⟨some assetRegisteredName, some ⟨n2, b2⟩⟩).consumed = some (k2, m2) ∧
      getKey (handleEvent now2 (handleEvent now1 ⟨[(k1, m1), (k2, m2)], meta0⟩
          ⟨some assetRegisteredName, some ⟨n1, b1⟩⟩).state
          ⟨some assetRegisteredName, some ⟨n2, b2⟩⟩).state.assetMetadata n1 = some m1 ∧
      getKey (handleEvent now2 (handleEvent now1 ⟨[(k1, m1), (k2, m2)], meta0⟩
          ⟨some assetRegisteredName, some ⟨n1, b1⟩⟩).state
          ⟨some assetRegisteredName, some ⟨n2, b2⟩⟩).state.assetMetadata n2 = some m2) :=
  ⟨consumed_is_oldest_for_actor, two_intents_fifo⟩

/-- Witness for C1 at concrete inputs: one matched confirmation for a
single pending intent, and the Laptop/Monitor two-confirmation scenario. -/
theorem fifo_matching_per_actor_witness :
    ("tx1", laptopMeta) ∈ ([("tx1", laptopMeta)] : List (String × AssetMeta)) ∧
    (handleEvent 10 ⟨[("tx1", laptopMeta), ("tx2", monitorMeta)], []⟩
        ⟨some assetRegisteredName, some ⟨1, "0xAB"⟩⟩).consumed = some ("tx1", laptopMeta) ∧
    (handleEvent 11 (handleEvent 10 ⟨[("tx1", laptopMeta), ("tx2", monitorMeta)], []⟩
        ⟨some assetRegisteredName, some ⟨1, "0xAB"⟩⟩).state
        ⟨some assetRegisteredName, some ⟨2, "0xAB"⟩⟩).consumed = some ("tx2", monitorMeta) ∧
    getKey (handleEvent 11 (handleEvent 10 ⟨[("tx1", laptopMeta), ("tx2", monitorMeta)], []⟩
        ⟨some assetRegisteredName, some ⟨1, "0xAB"⟩⟩).state
        ⟨some assetRegisteredName, some ⟨2, "0xAB"⟩⟩).state.assetMetadata 1 = some laptopMeta ∧
    getKey (handleEvent 11 (handleEvent 10 ⟨[("tx1", laptopMeta), ("tx2", monitorMeta)], []⟩
        ⟨some assetRegisteredName, some ⟨1, "0xAB"⟩⟩).state
        ⟨some assetRegisteredName, some ⟨2, "0xAB"⟩⟩).state.assetMetadata 2 = some monitorMeta :=
  ⟨(fifo_matching_per_actor.1 5 ⟨[("tx1", laptopMeta)], []⟩ ⟨1, "0xAB"⟩ "tx1" laptopMeta
      (by decide)).1,
   fifo_matching_per_actor.2 10 11 [] "tx1" "tx2" laptopMeta monitorMeta "0xAB" "0xAB" 1 2
     (by decide) (by decide) (by decide) (by decide) (by decide) (by decide)⟩

/-- Claim C2: actor isolation.  The intent consumed for a confirmation of
actor A was submitted under the same case-folded identity, and a pending
intent whose case-folded creator differs from the actor of the event is never
removed from the Intent Store, regardless of age. -/
theorem actor_scoped_matching :
    (∀ now st out txId m,
      (handleEvent now st ⟨some assetRegisteredName, some out⟩).consumed = some (txId, m) →
      jsToLower m.createdBy = jsToLower out.registeredBy) ∧
    (∀ now st out e, (st.pendingAssetMetadata.map Prod.fst).Nodup →
      e ∈ st.pendingAssetMetadata →
      jsToLower (AssetMeta.createdBy e.2) ≠ jsToLower (EventOutput.registeredBy out) →
      e ∈ (handleEvent now st
        ⟨some assetRegisteredName, some out⟩).state.pendingAssetMetadata) := by
  constructor
  · intro now st out txId m h
    exact (consumed_is_oldest_for_actor now st out txId m h).2.1
  · intro now st out e hnd he hne
    cases hh : (sortedEntries (creatorEntries st.pendingAssetMetadata
        (jsToLower out.registeredBy))).head? with
    | none =>
      rw [handleEvent_unmatched now st out (head?_sortedEntries_none hh)]
      exact he
    | some e0 =>
      obtain ⟨k0, m0⟩ := e0
      rw [handleEvent_matched now st out k0 m0 hh]
      have hcm := mem_creatorEntries.1 (head?_sortedEntries_mem hh)
      refine mem_eraseKey.2 ⟨he, ?_⟩
      refine beq_eq_false_iff_ne.2 ?_
      intro hek
      have he' : (k0, e.2) ∈ st.pendingAssetMetadata := by
        rw [← hek]
        exact he
      have : e.2 = m0 := getVal_unique hnd he' hcm.1
      rw [this] at hne
      exact hne hcm.2

/-- Witness for C2 at concrete inputs: the creator of the matched intent
equals the actor of the event after case folding, and the pending intent of the other
actor survives the confirmation. -/
theorem actor_scoped_matching_witness :
    jsToLower laptopMeta.createdBy = jsToLower "0xAB" ∧
    ("txD", deskMeta) ∈ (handleEvent 4 ⟨[("tx1", laptopMeta), ("txD", deskMeta)], []⟩
      ⟨some assetRegisteredName, some ⟨1, "0xAB"⟩⟩).state.pendingAssetMetadata :=
  ⟨actor_scoped_matching.1 5 ⟨[("tx1", laptopMeta)], []⟩ ⟨1, "0xAB"⟩ "tx1" laptopMeta (by decide),
   actor_scoped_matching.2 4 ⟨[("tx1", laptopMeta), ("txD", deskMeta)], []⟩ ⟨1, "0xAB"⟩
     ("txD", deskMeta) (by decide) (by decide) (by decide)⟩

/-- Counterexample to claim C3 as stated: commit is NOT at-most-once per
entityId.  Redelivering the same `AssetRegistered` confirmation (asset 1,
actor `0xAB`) while a second intent of that actor pends makes the handler
consume the second intent and commit again under entityId 1, replacing
the first ConfirmedRecord with a different payload. -/
theorem duplicate_confirmation_recommits :
    getKey (handleEvent 10 ⟨[("tx1", laptopMeta), ("tx2", monitorMeta)], []⟩
      regEvent1).state.assetMetadata 1 = some laptopMeta ∧
    (handleEvent 11 (handleEvent 10 ⟨[("tx1", laptopMeta), ("tx2", monitorMeta)], []⟩
       regEvent1).state regEvent1).consumed = some ("tx2", monitorMeta) ∧
    getKey (handleEvent 11 (handleEvent 10 ⟨[("tx1", laptopMeta), ("tx2", monitorMeta)], []⟩
       regEvent1).state regEvent1).state.assetMetadata 1 = some monitorMeta ∧
    laptopMeta ≠ monitorMeta := by decide

/-- Claim C3 as amended: the intent side of the claim holds — a consumed
intent was pending, and its key is gone from the Intent Store the moment
it is matched, so one intent is reconciled into at most one record — but
commits per entityId are not at-most-once (see the counterexample). -/
theorem intent_consumed_at_most_once (now : Nat) (st : ServerState) (ev : FFEvent)
    (txId : String) (m : AssetMeta)
    (h : (handleEvent now st ev).consumed = some (txId, m)) :
    (txId, m) ∈ st.pendingAssetMetadata ∧
    ∀ v, (txId, v) ∉ (handleEvent now st ev).state.pendingAssetMetadata := by
  obtain ⟨nm, op⟩ := ev
  match nm, op with
  | none, op =>
    rw [handleEvent_no_name] at h
    cases h
  | some n, none =>
    rw [handleEvent_no_output] at h
    simp at h
  | some n, some out =>
    by_cases hn : n = assetRegisteredName
    · subst hn
      cases hh : (sortedEntries (creatorEntries st.pendingAssetMetadata
          (jsToLower out.registeredBy))).head? with
      | none =>
        rw [handleEvent_unmatched now st out (head?_sortedEntries_none hh)] at h
        cases h
      | some e0 =>
        obtain ⟨k0, m0⟩ := e0
        rw [handleEvent_matched now st out k0 m0 hh] at h
        simp only [Option.some.injEq, Prod.mk.injEq] at h
        obtain ⟨rfl, rfl⟩ := h
        constructor
        · exact (mem_creatorEntries.1 (head?_sortedEntries_mem hh)).1
        · intro v hv
          rw [handleEvent_matched now st out k0 m0 hh] at hv
          exact not_mem_eraseKey_self hv
    · rw [handleEvent_other_name now st n (some out) hn] at h
      simp at h

/-- Witness for amended C3 at a concrete input: the matched intent was
pending and its transaction id is no longer in the Intent Store. -/
theorem intent_consumed_at_most_once_witness :
    ("tx1", laptopMeta) ∈
      ([("tx1", laptopMeta), ("tx2", monitorMeta)] : List (String × AssetMeta)) ∧
    ("tx1", laptopMeta) ∉ (handleEvent 10 ⟨[("tx1", laptopMeta), ("tx2", monitorMeta)], []⟩
      regEvent1).state.pendingAssetMetadata :=
  ⟨(intent_consumed_at_most_once 10 ⟨[("tx1", laptopMeta), ("tx2", monitorMeta)], []⟩
      regEvent1 "tx1" laptopMeta (by decide)).1,
   (intent_consumed_at_most_once 10 ⟨[("tx1", laptopMeta), ("tx2", monitorMeta)], []⟩
      regEvent1 "tx1" laptopMeta (by decide)).2 laptopMeta⟩

/-- Counterexample to claim C4 as stated: with entityId 1 already present
holding one payload, the commit performed by the handler for a new
confirmation of asset 1 does not fail — it silently overwrites the
existing ConfirmedRecord with a different payload. -/
theorem commit_overwrites_existing_record :
    getKey (⟨[("tx2", monitorMeta)], [(1, laptopMeta)]⟩ : ServerState).assetMetadata 1
      = some laptopMeta ∧
    (handleEvent 9 ⟨[("tx2", monitorMeta)], [(1, laptopMeta)]⟩ regEvent1).consumed
      = some ("tx2", monitorMeta) ∧
    getKey (handleEvent 9 ⟨[("tx2", monitorMeta)], [(1, laptopMeta)]⟩
      regEvent1).state.assetMetadata 1 = some monitorMeta ∧
    monitorMeta ≠ laptopMeta := by decide

/-- Claim C4 as amended: the commit of the Authoritative Metadata Store
(`assetMetadata[assetId] = metadata`, embedded as `setKey`) never fails:
it stores the new payload under the entityId — overwriting any existing
record, same or different payload alike — and leaves every other entityId
unchanged; recommitting an identical payload leaves the store
extensionally unchanged (a de-facto no-op). -/
theorem commit_overwrite_semantics (s : List (Nat × AssetMeta)) (k : Nat) (v : AssetMeta) :
    getKey (setKey s k v) k = some v ∧
    (∀ j, j ≠ k → getKey (setKey s k v) j = getKey s j) ∧
    (getKey s k = some v → ∀ j, getKey (setKey s k v) j = getKey s j) := by
  refine ⟨getKey_setKey_self s k v, fun j hj => getKey_setKey_ne s k j v hj, ?_⟩
  intro hv j
  by_cases hj : j = k
  · subst hj
    rw [getKey_setKey_self]
    exact hv.symm
  · exact getKey_setKey_ne s k j v hj

/-- Witness for amended C4 at concrete inputs: overwrite lands, another
key is untouched, and an identical recommit changes nothing. -/
theorem commit_overwrite_semantics_witness :
    getKey (setKey [(1, laptopMeta)] 1 monitorMeta) 1 = some monitorMeta ∧
    getKey (setKey [(1, laptopMeta)] 1 monitorMeta) 2 = getKey [(1, laptopMeta)] 2 ∧
    getKey (setKey [(1, laptopMeta)] 1 laptopMeta) 1 = getKey [(1, laptopMeta)] 1 :=
  ⟨(commit_overwrite_semantics [(1, laptopMeta)] 1 monitorMeta).1,
   (commit_overwrite_semantics [(1, laptopMeta)] 1 monitorMeta).2.1 2 (by decide),
   (commit_overwrite_semantics [(1, laptopMeta)] 1 laptopMeta).2.2 (by decide) 1⟩

/-- Counterexample to claim C5 as stated: there is no expiry.  An intent
submitted at t = 0 with no confirmation for 10^15 time units is still in
the Intent Store, and the late confirmation for that actor consumes it
instead of reporting unmatched. -/
theorem late_confirmation_consumes_stale_intent :
    (handleEvent 1000000000000000 ⟨[("tx1", laptopMeta)], []⟩ regEvent1).consumed
      = some ("tx1", laptopMeta) ∧
    (handleEvent 1000000000000000 ⟨[("tx1", laptopMeta)], []⟩ regEvent1).warned = none := by
  decide

/-- Claim C5 as amended: the code has no `expireOlderThan` operation and
no background sweep.  Reconciliation is independent of the current time
(only the broadcast timestamp uses it), so a pending intent is never
dropped by the passage of time, and the handler reports unmatched exactly
when the actor has no pending intent at all — never because an intent
aged out. -/
theorem no_intent_expiry (now now2 : Nat) (st : ServerState) (out : EventOutput) :
    ((handleEvent now st ⟨some assetRegisteredName, some out⟩).state
        = (handleEvent now2 st ⟨some assetRegisteredName, some out⟩).state ∧
     (handleEvent now st ⟨some assetRegisteredName, some out⟩).consumed
        = (handleEvent now2 st ⟨some assetRegisteredName, some out⟩).consumed ∧
     (handleEvent now st ⟨some assetRegisteredName, some out⟩).warned
        = (handleEvent now2 st ⟨some assetRegisteredName, some out⟩).warned) ∧
    ((handleEvent now st ⟨some assetRegisteredName, some out⟩).warned.isSome = true ↔
      creatorEntries st.pendingAssetMetadata (jsToLower out.registeredBy) = []) := by
  cases hh : (sortedEntries (creatorEntries st.pendingAssetMetadata
      (jsToLower out.registeredBy))).head? with
  | none =>
    have hce := head?_sortedEntries_none hh
    rw [handleEvent_unmatched now st out hce, handleEvent_unmatched now2 st out hce]
    exact ⟨⟨rfl, rfl, rfl⟩, by simp [hce]⟩
  | some e0 =>
    obtain ⟨k0, m0⟩ := e0
    rw [handleEvent_matched now st out k0 m0 hh, handleEvent_matched now2 st out k0 m0 hh]
    refine ⟨⟨rfl, rfl, rfl⟩, ?_⟩
    constructor
    · intro habs
      simp at habs
    · intro hce
      rw [hce] at hh
      simp [sortedEntries] at hh

/-- Witness for amended C5 at concrete inputs: the reconciliation outcome
for a stale intent is identical at time 5 and at time 10^15. -/
theorem no_intent_expiry_witness :
    ((handleEvent 5 ⟨[("tx1", laptopMeta)], []⟩
        ⟨some assetRegisteredName, some ⟨1, "0xAB"⟩⟩).state
      = (handleEvent 1000000000000001 ⟨[("tx1", laptopMeta)], []⟩
          ⟨some assetRegisteredName, some ⟨1, "0xAB"⟩⟩).state ∧
     (handleEvent 5 ⟨[("tx1", laptopMeta)], []⟩
        ⟨some assetRegisteredName, some ⟨1, "0xAB"⟩⟩).consumed
      = (handleEvent 1000000000000001 ⟨[("tx1", laptopMeta)], []⟩
          ⟨some assetRegisteredName, some ⟨1, "0xAB"⟩⟩).consumed ∧
     (handleEvent 5 ⟨[("tx1", laptopMeta)], []⟩
        ⟨some assetRegisteredName, some ⟨1, "0xAB"⟩⟩).warned
      = (handleEvent 1000000000000001 ⟨[("tx1", laptopMeta)], []⟩
          ⟨some assetRegisteredName, some ⟨1, "0xAB"⟩⟩).warned) ∧
    ((handleEvent 5 ⟨[("tx1", laptopMeta)], []⟩
        ⟨some assetRegisteredName, some ⟨1, "0xAB"⟩⟩).warned.isSome = true ↔
      creatorEntries [("tx1", laptopMeta)] (jsToLower "0xAB") = []) :=
  no_intent_expiry 5 1000000000000001 ⟨[("tx1", laptopMeta)], []⟩ ⟨1, "0xAB"⟩

/-- Counterexample to claim C6 as stated: not every consumed event is
forwarded.  An event whose `blockchainEvent` name is absent, and likewise
one whose name is the empty string (falsy in JS), produce no broadcast at
all. -/
theorem nameless_event_not_forwarded :
    (handleEvent 7 ⟨[], []⟩ ⟨none, none⟩).broadcasts = [] ∧
    (handleEvent 7 ⟨[], []⟩ ⟨some "", none⟩).broadcasts = [] := by decide

/-- Claim C6 as amended: every event carrying a nonempty `eventName` is
forwarded to the Broadcast Fan-out — name and output unchanged, plus the
server timestamp — regardless of kind and match outcome; and an event
whose name is not the recognized creation kind triggers no reconciliation
and no store mutation. -/
theorem named_event_forwarding (now : Nat) (st : ServerState) (ev : FFEvent) (n : String)
    (hn : ev.name = some n) (hne : n ≠ "") :
    (handleEvent now st ev).broadcasts = [⟨n, ev.output, now⟩] ∧
    (n ≠ assetRegisteredName →
      (handleEvent now st ev).state = st ∧
      (handleEvent now st ev).consumed = none ∧
      (handleEvent now st ev).warned = none) := by
  obtain ⟨nm, op⟩ := ev
  replace hn : nm = some n := hn
  subst hn
  have hb : (n == "") = false := beq_eq_false_iff_ne.2 hne
  constructor
  · simp [handleEvent, hb]
  · intro hnar
    rw [handleEvent_other_name now st n op hnar]
    exact ⟨rfl, rfl, rfl⟩

/-- Witness for amended C6 at a concrete input: a `Transfer` event is
broadcast unchanged and mutates nothing. -/
theorem named_event_forwarding_witness :
    (handleEvent 8 ⟨[("tx1", laptopMeta)], []⟩ ⟨some "Transfer", none⟩).broadcasts
      = [⟨"Transfer", none, 8⟩] ∧
    (handleEvent 8 ⟨[("tx1", laptopMeta)], []⟩ ⟨some "Transfer", none⟩).state
      = ⟨[("tx1", laptopMeta)], []⟩ ∧
    (handleEvent 8 ⟨[("tx1", laptopMeta)], []⟩ ⟨some "Transfer", none⟩).consumed = none ∧
    (handleEvent 8 ⟨[("tx1", laptopMeta)], []⟩ ⟨some "Transfer", none⟩).warned = none :=
  ⟨(named_event_forwarding 8 ⟨[("tx1", laptopMeta)], []⟩ ⟨some "Transfer", none⟩ "Transfer"
      rfl (by decide)).1,
   (named_event_forwarding 8 ⟨[("tx1", laptopMeta)], []⟩ ⟨some "Transfer", none⟩ "Transfer"
      rfl (by decide)).2 (by decide)⟩

/-- Claim C7: unmatched confirmation is a logged no-op.  When a
recognized creation event arrives for an actor with no pending intent,
the unmatched warning is recorded with the actor and asset id, nothing is
consumed, and both stores are left exactly as they were. -/
theorem unmatched_confirmation_noop (now : Nat) (st : ServerState) (out : EventOutput)
    (hp : creatorEntries st.pendingAssetMetadata (jsToLower out.registeredBy) = []) :
    (handleEvent now st ⟨some assetRegisteredName, some out⟩).warned
      = some (jsToLower out.registeredBy, out.assetId) ∧
    (handleEvent now st ⟨some assetRegisteredName, some out⟩).state = st ∧
    (handleEvent now st ⟨some assetRegisteredName, some out⟩).consumed = none := by
  rw [handleEvent_unmatched now st out hp]
  exact ⟨rfl, rfl, rfl⟩

/-- Witness for C7 at a concrete input: a confirmation for actor `0xAB`
while only actor `0xFF` has a pending intent warns and changes nothing. -/
theorem unmatched_confirmation_noop_witness :
    (handleEvent 3 ⟨[("txD", deskMeta)], []⟩
      ⟨some assetRegisteredName, some ⟨1, "0xAB"⟩⟩).warned = some (jsToLower "0xAB", 1) ∧
    (handleEvent 3 ⟨[("txD", deskMeta)], []⟩
      ⟨some assetRegisteredName, some ⟨1, "0xAB"⟩⟩).state = ⟨[("txD", deskMeta)], []⟩ ∧
    (handleEvent 3 ⟨[("txD", deskMeta)], []⟩
      ⟨some assetRegisteredName, some ⟨1, "0xAB"⟩⟩).consumed = none :=
  unmatched_confirmation_noop 3 ⟨[("txD", deskMeta)], []⟩ ⟨1, "0xAB"⟩ (by decide)

/-- Claim C8: submission-failure atomicity.  With a valid member, a
failing `invokeContractAPI` call leaves the Intent Store unchanged and
surfaces the error synchronously, while only a successful acknowledgment
leads to an intent stored under the provisional
transaction id. -/
theorem submission_failure_atomicity (now : Nat) (pending : List (String × AssetMeta))
    (g : Except String GatewayAck) (req : RegisterRequest) (k : String)
    (hk : MEMBER_KEYS req.userId = some k) :
    (∀ msg, g = Except.error msg →
      (registerAsset now pending g req).pending = pending ∧
      (registerAsset now pending g req).response = RegisterResponse.gatewayError msg) ∧
    (∀ ack, g = Except.ok ack →
      (registerAsset now pending g req).pending = setKey pending ack.id (intentOf now k req) ∧
      (registerAsset now pending g req).response = RegisterResponse.accepted ack.id) := by
  constructor
  · intro msg hmsg
    subst hmsg
    simp [registerAsset, hk]
  · intro ack hack
    subst hack
    simp [registerAsset, hk]

/-- Witness for C8 at concrete inputs: a thrown gateway error for
`member0` mutates nothing and returns the 500 error; a successful
acknowledgment stores the intent under the returned transaction id. -/
theorem submission_failure_atomicity_witness :
    ((registerAsset 3 [] (Except.error "boom") ⟨"member0", none, none, none⟩).pending = [] ∧
     (registerAsset 3 [] (Except.error "boom") ⟨"member0", none, none, none⟩).response
       = RegisterResponse.gatewayError "boom") ∧
    ((registerAsset 3 [] (Except.ok ⟨"tx9"⟩) ⟨"member0", none, none, none⟩).pending
       = setKey [] "tx9" (intentOf 3 "0xf56dfc48a146b9b4511465ecbf7f4b4e7308ce5a"
           ⟨"member0", none, none, none⟩) ∧
     (registerAsset 3 [] (Except.ok ⟨"tx9"⟩) ⟨"member0", none, none, none⟩).response
       = RegisterResponse.accepted "tx9") :=
  ⟨(submission_failure_atomicity 3 [] (Except.error "boom") ⟨"member0", none, none, none⟩
      "0xf56dfc48a146b9b4511465ecbf7f4b4e7308ce5a" rfl).1 "boom" rfl,
   (submission_failure_atomicity 3 [] (Except.ok ⟨"tx9"⟩) ⟨"member0", none, none, none⟩
      "0xf56dfc48a146b9b4511465ecbf7f4b4e7308ce5a" rfl).2 ⟨"tx9"⟩ rfl⟩

/-- Claim C9: a stream event with an absent `blockchainEvent` name is a
complete no-op — no store mutation, no match, no warning, and no
broadcast — and broadcasting only ever happens for events carrying a
name. -/
theorem nameless_event_frame :
    (∀ now st outp, handleEvent now st ⟨none, outp⟩ = ⟨st, none, none, []⟩) ∧
    (∀ now st ev, (handleEvent now st ev).broadcasts ≠ [] → FFEvent.name ev ≠ none) := by
  constructor
  · exact fun now st outp => handleEvent_no_name now st outp
  · intro now st ev h
    obtain ⟨nm, op⟩ := ev
    cases nm with
    | none =>
      rw [handleEvent_no_name] at h
      exact absurd rfl h
    | some n => simp

/-- Witness for C9 at concrete inputs: a nameless event is a no-op, while
a broadcast-producing `Transfer` event indeed carries a name. -/
theorem nameless_event_frame_witness :
    handleEvent 5 ⟨[("tx1", laptopMeta)], []⟩ ⟨none, some ⟨1, "0xAB"⟩⟩
      = ⟨⟨[("tx1", laptopMeta)], []⟩, none, none, []⟩ ∧
    FFEvent.name ⟨some "Transfer", none⟩ ≠ none :=
  ⟨nameless_event_frame.1 5 ⟨[("tx1", laptopMeta)], []⟩ (some ⟨1, "0xAB"⟩),
   nameless_event_frame.2 5 ⟨[], []⟩ ⟨some "Transfer", none⟩ (by decide)⟩

/-- Claim C10: an asset-registration request whose userId is neither
`member0` nor `member1` is rejected with the invalid-user error, the
Ledger Gateway is never invoked, and the Intent Store is unchanged. -/
theorem invalid_user_rejected (now : Nat) (pending : List (String × AssetMeta))
    (g : Except String GatewayAck) (req : RegisterRequest)
    (h0 : req.userId ≠ "member0") (h1 : req.userId ≠ "member1") :
    registerAsset now pending g req = ⟨pending, RegisterResponse.invalidUser, false⟩ := by
  have k0 : (req.userId == "member0") = false := beq_eq_false_iff_ne.2 h0
  have k1 : (req.userId == "member1") = false := beq_eq_false_iff_ne.2 h1
  simp [registerAsset, MEMBER_KEYS, k0, k1]

/-- Witness for C10 at a concrete input: user `alice` is rejected without
any gateway call or store mutation. -/
theorem invalid_user_rejected_witness :
    registerAsset 3 [("tx1", laptopMeta)] (Except.ok ⟨"tx9"⟩) ⟨"alice", none, none, none⟩
      = ⟨[("tx1", laptopMeta)], RegisterResponse.invalidUser, false⟩ :=
  invalid_user_rejected 3 [("tx1", laptopMeta)] (Except.ok ⟨"tx9"⟩)
    ⟨"alice", none, none, none⟩ (by decide) (by decide)

end AssetBackend
